import Mathlib

/-!
Verification of the cprepair repository: a shallow embedding of its retry
wrapper (generateWithRetry), record normalizer (processLibraryData and the
two findValue variants), citation extraction (analyzeRepairIssue), markdown
renderer (MarkdownRenderer) and submission handler (handleSubmit), with
theorems settling the specification claims.
-/

namespace CPRepair

/-! ### JavaScript value and string primitives -/

/-- A loosely typed JavaScript value as it appears in imported row objects. -/
inductive JSVal where
  | vStr (s : String)
  | vNum (n : Int)
  | vBool (b : Bool)
  | vNull
deriving DecidableEq

/-- JavaScript String(v) coercion. -/
def toStringJS : JSVal → String
  | .vStr s => s
  | .vNum n => toString n
  | .vBool true => "true"
  | .vBool false => "false"
  | .vNull => "null"

/-- JavaScript truthiness of a value. -/
def truthy : JSVal → Bool
  | .vStr s => !(s == "")
  | .vNum n => !(n == 0)
  | .vBool b => b
  | .vNull => false

/-- Whitespace characters removed by the JavaScript trim method. -/
def isJsSpace (c : Char) : Bool :=
  c == ' ' || c == '\t' || c == '\n' || c == '\r' || c == '\x0b' || c == '\x0c'

/-- JavaScript trim: strip leading and trailing whitespace. -/
def jsTrim (s : String) : String :=
  ⟨((s.data.dropWhile isJsSpace).reverse.dropWhile isJsSpace).reverse⟩

/-- JavaScript toLowerCase (ASCII letters; CJK characters have no case). -/
def lowerStr (s : String) : String := ⟨s.data.map Char.toLower⟩

/-- Boolean list-prefix test. -/
def isPrefixB : List Char → List Char → Bool
  | [], _ => true
  | _ :: _, [] => false
  | a :: as, b :: bs => a == b && isPrefixB as bs

/-- Boolean substring (contiguous) test on character lists. -/
def isInfixB (needle : List Char) (hay : List Char) : Bool :=
  match hay with
  | [] => needle.isEmpty
  | _ :: rest => isPrefixB needle hay || isInfixB needle rest

/-- JavaScript s.includes(sub). -/
def jsIncludes (s sub : String) : Bool := isInfixB sub.data s.data

/-- JavaScript s.startsWith(p). -/
def jsStartsWith (s p : String) : Bool := isPrefixB p.data s.data

/-- JavaScript s.endsWith(p). -/
def jsEndsWith (s p : String) : Bool := isPrefixB p.data.reverse s.data.reverse

/-- Splitting worker for jsSplit; fuel bounds the recursion and is always
sufficient because each step consumes at least one character. -/
def jsSplitList (sep : List Char) : Nat → List Char → List Char → List (List Char)
  | 0, cs, acc => [acc.reverse ++ cs]
  | _ + 1, [], acc => [acc.reverse]
  | fuel + 1, c :: rest, acc =>
    if isPrefixB sep (c :: rest) then
      acc.reverse :: jsSplitList sep fuel ((c :: rest).drop sep.length) []
    else
      jsSplitList sep fuel rest (c :: acc)

/-- JavaScript s.split(sep) for a nonempty plain-string separator. -/
def jsSplit (s sep : String) : List String :=
  (jsSplitList sep.data (s.data.length + 1) s.data []).map fun l => ⟨l⟩

/-- Replace the first occurrence of needle by repl (JavaScript replace with a
plain-string pattern). -/
def replaceFirstList (needle repl : List Char) : List Char → List Char
  | [] => []
  | c :: rest =>
    if isPrefixB needle (c :: rest) then repl ++ (c :: rest).drop needle.length
    else c :: replaceFirstList needle repl rest

/-- JavaScript s.replace(pat, repl) for a plain-string pattern. -/
def jsReplaceFirst (s pat repl : String) : String :=
  ⟨replaceFirstList pat.data repl.data s.data⟩

/-- Strip a fixed leading pattern if present (JavaScript replace with an
anchored regex such as replace(/^- \*\*/, empty)). -/
def stripPre (s p : String) : String :=
  if jsStartsWith s p then ⟨s.data.drop p.data.length⟩ else s

/-- JavaScript array.join(sep). -/
def joinWith (sep : String) : List String → String
  | [] => ""
  | [x] => x
  | x :: y :: rest => x ++ sep ++ joinWith sep (y :: rest)

/-- JavaScript a || b for an optional string a: b when a is undefined or
empty, otherwise a. -/
def jsOrStr : Option String → String → String
  | some s, d => if s = "" then d else s
  | none, d => d

/-! ### ResilientInvoker: generateWithRetry (src/services/geminiService.ts, lines 110-149) -/

/-- A JavaScript error as observed by the catch block: message and status. -/
structure JsErr where
  message : Option String
  status : Option Int
deriving DecidableEq

/-- error.message || an empty string. -/
def errMessage (e : JsErr) : String := e.message.getD ""

/-- Authorization classification from the catch block: an entity-not-found
message, an invalid-key message, or a 403/401 status. -/
def isAuthError (e : JsErr) : Bool :=
  jsIncludes (errMessage e) "Requested entity was not found" ||
  jsIncludes (errMessage e) "API key not valid" ||
  e.status == some 403 || e.status == some 401

/-- Transient/network classification from the catch block. -/
def isNetworkError (e : JsErr) : Bool :=
  jsIncludes (errMessage e) "500" ||
  jsIncludes (errMessage e) "fetch" ||
  jsIncludes (errMessage e) "Rpc failed" ||
  jsIncludes (errMessage e) "XHR error"

/-- The error thrown for an authorization-class failure. -/
def apiKeyInvalidErr : JsErr := ⟨some "API_KEY_INVALID", none⟩

/-- The error thrown when the loop exits without returning. -/
def maxRetriesErr : JsErr := ⟨some "MAX_RETRIES_REACHED", none⟩

/-- The error thrown when no API key is configured. -/
def apiKeyMissingErr : JsErr := ⟨some "API_KEY_MISSING", none⟩

deriving instance DecidableEq for Except

/-- Observable outcome of one generateWithRetry run: the value returned or
error thrown, the number of underlying calls made, and the list of sleep
durations performed (in order). -/
structure RetryTrace (α : Type) where
  result : Except JsErr α
  attempts : Nat
  sleeps : List Nat
deriving DecidableEq

/-- The for loop of generateWithRetry. outcome i is what the i-th underlying
call does (0-based); remaining = retries - i counts loop iterations left. -/
def retryLoop {α : Type} (outcome : Nat → Except JsErr α) (retries : Nat) :
    Nat → Nat → Nat → List Nat → RetryTrace α
  | 0, i, _, sleeps => ⟨.error maxRetriesErr, i, sleeps⟩
  | remaining + 1, i, delay, sleeps =>
    match outcome i with
    | .ok r => ⟨.ok r, i + 1, sleeps⟩
    | .error e =>
      if isAuthError e then ⟨.error apiKeyInvalidErr, i + 1, sleeps⟩
      else if isNetworkError e && decide (i < retries - 1) then
        retryLoop outcome retries remaining (i + 1) (delay * 2) (sleeps ++ [delay])
      else ⟨.error e, i + 1, sleeps⟩

/-- generateWithRetry from src/services/geminiService.ts lines 110-149: a
missing key aborts before the loop; otherwise run the classified retry loop
starting at the initial delay. -/
def generateWithRetry {α : Type} (hasApiKey : Bool) (outcome : Nat → Except JsErr α)
    (retries : Nat) (initialDelay : Nat) : RetryTrace α :=
  if hasApiKey then retryLoop outcome retries retries 0 initialDelay []
  else ⟨.error apiKeyMissingErr, 0, []⟩

/-- A representative transient error: an RPC failure. -/
def rpcErr : JsErr := ⟨some "Rpc failed", none⟩

/-! ### RecordNormalizer (src/unnamed/part_002 lines 184-226 and src/App.tsx lines 193-210) -/

/-- A normalized case record (LibraryItem in the source). -/
structure LibraryItem where
  id : String
  name : String
  category : String
  description : String
  analysis : Option String
deriving DecidableEq

/-- An imported row object: keys paired with loosely typed values, in
object key order. -/
abbrev Row := List (String × JSVal)

/-- findValue from part_002 lines 184-191: scan the alias list in order; for
each alias take the first row key equal to it case-insensitively; return the
trimmed string form of its value when that value is truthy, otherwise move
to the next alias. -/
def findValue (item : Row) : List String → Option String
  | [] => none
  | key :: rest =>
    match item.find? (fun p => lowerStr p.1 == lowerStr key) with
    | some p => if truthy p.2 then some (jsTrim (toStringJS p.2)) else findValue item rest
    | none => findValue item rest

/-- Fault-description aliases of part_002. -/
def descAliases : List String :=
  ["description", "描述", "故障", "故障描述", "问题", "现象", "issue"]

/-- Device-name aliases of part_002. -/
def nameAliases : List String :=
  ["name", "名称", "设备", "设备名称", "器件", "标题", "title"]

/-- Category aliases of part_002. -/
def categoryAliases : List String := ["category", "分类", "类别", "type"]

/-- Analysis/solution aliases of part_002. -/
def analysisAliases : List String :=
  ["analysis", "分析", "问题分析", "解决方案", "维修方案", "处理方法", "solution", "fix"]

/-- The resolved fault description of a row: the findValue result when it is
a nonempty string, matching the guard if (!desc) return null. -/
def resolvedDesc (item : Row) : Option String :=
  match findValue item descAliases with
  | some d => if d = "" then none else some d
  | none => none

/-- One row of the part_002 map callback: null when the fault description
does not resolve, otherwise the normalized record. now abstracts Date.now()
and i is the row index used in the generated id. -/
def rowToItem (now i : Nat) (item : Row) : Option LibraryItem :=
  match resolvedDesc item with
  | none => none
  | some d =>
    some
      { id := "lib-" ++ toString now ++ "-" ++ toString i
        name := jsOrStr (findValue item nameAliases) "未知设备"
        category := jsOrStr (findValue item categoryAliases) "未分类"
        description := d
        analysis := findValue item analysisAliases }

/-- data.map(rowToItem).filter(Boolean): indices advance over every row,
skipped rows produce nothing. -/
def buildItems (now : Nat) : Nat → List Row → List LibraryItem
  | _, [] => []
  | i, r :: rest =>
    match rowToItem now i r with
    | some it => it :: buildItems now (i + 1) rest
    | none => buildItems now (i + 1) rest

/-- The user-visible message shown when no row had a usable description. -/
def noValidMsg : String := "未找到有效数据。请确保文件中包含“故障描述”相关列。"

/-- processLibraryData from part_002 lines 193-226: when zero rows are valid
the previous record set is kept and the error message set; otherwise the
record set is replaced and the error cleared. Returns the new
(libraryItems, errorMsg) pair. -/
def processLibraryData (now : Nat) (prevItems : List LibraryItem)
    (data : List Row) : List LibraryItem × Option String :=
  let items := buildItems now 0 data
  if items.length = 0 then (prevItems, some noValidMsg)
  else (items, none)

/-- Fault-description aliases of the src/App.tsx variant. -/
def descAliasesApp : List String := ["description", "描述", "故障", "现象", "issue"]

/-- Device-name aliases of the src/App.tsx variant. -/
def nameAliasesApp : List String := ["name", "设备", "型号", "title"]

/-- Analysis aliases of the src/App.tsx variant. -/
def analysisAliasesApp : List String := ["analysis", "方案", "处理", "solution"]

/-- findVal from src/App.tsx lines 195-198: scan the row keys in object
order and take the first key whose lowercase form is in the alias list; the
value is stringified and trimmed with no truthiness check. -/
def findVal (item : Row) (keys : List String) : Option String :=
  match item.find? (fun p => keys.contains (lowerStr p.1)) with
  | some p => some (jsTrim (toStringJS p.2))
  | none => none

/-- One row of the src/App.tsx map callback. -/
def rowToItemApp (now i : Nat) (item : Row) : Option LibraryItem :=
  match findVal item descAliasesApp with
  | none => none
  | some d =>
    if d = "" then none
    else
      some
        { id := "lib-" ++ toString now ++ "-" ++ toString i
          name := jsOrStr (findVal item nameAliasesApp) "未知设备"
          category := "历史存档"
          description := d
          analysis := findVal item analysisAliasesApp }

/-- data.map(rowToItemApp).filter(Boolean) for the src/App.tsx variant. -/
def buildItemsApp (now : Nat) : Nat → List Row → List LibraryItem
  | _, [] => []
  | i, r :: rest =>
    match rowToItemApp now i r with
    | some it => it :: buildItemsApp now (i + 1) rest
    | none => buildItemsApp now (i + 1) rest

/-- processLibraryData from src/App.tsx lines 193-210: unconditionally
replaces the record set with the normalized rows and never touches the
error message. Returns the new (libraryItems, errorMsg) pair given the
previous error message. -/
def processLibraryDataApp (now : Nat) (_prevItems : List LibraryItem)
    (prevErr : Option String) (data : List Row) : List LibraryItem × Option String :=
  (buildItemsApp now 0 data, prevErr)

/-! ### Citation extraction (src/unnamed/part_003 lines 120-131) -/

/-- The web metadata of a grounding chunk; either field may be absent. -/
structure WebInfo where
  uri : Option String
  title : Option String
deriving DecidableEq

/-- One grounding chunk of the response metadata. -/
structure GroundingChunk where
  web : Option WebInfo
deriving DecidableEq

/-- One entry of the sources array in the returned AnalysisResult: either a
complete uri/title pair under web, or an empty placeholder object. -/
structure SourceEntry where
  web : Option (String × String)
deriving DecidableEq

/-- The map callback of part_003 lines 121-131: a chunk with web, uri and
title all truthy maps to a complete pair; every other chunk maps to an empty
object. -/
def mapChunk (c : GroundingChunk) : SourceEntry :=
  match c.web with
  | none => ⟨none⟩
  | some w =>
    match w.uri, w.title with
    | some u, some t => if u ≠ "" ∧ t ≠ "" then ⟨some (u, t)⟩ else ⟨none⟩
    | _, _ => ⟨none⟩

/-- rawChunks.map(...) building the sources field of the AnalysisResult. -/
def extractSources (chunks : List GroundingChunk) : List SourceEntry :=
  chunks.map mapChunk

/-! ### TextRenderer (src/unnamed/part_002 lines 684-736, MarkdownRenderer) -/

/-- One display block produced from one input line. -/
inductive Block where
  | header2 (text : String)
  | header3 (text : String)
  | listItem (label : String) (body : String)
  | bullet (text : String)
  | blank
  | para (segments : List (String × Bool))
deriving DecidableEq

/-- Split a character list at the first occurrence of two stars, returning
the part before and the part after them. -/
def findStars : List Char → Option (List Char × List Char)
  | [] => none
  | c :: rest =>
    if isPrefixB ['*', '*'] (c :: rest) then some ([], rest.drop 1)
    else
      match findStars rest with
      | some (pre, post) => some (c :: pre, post)
      | none => none

/-- The first lazy match of the bold regex: the text before the match, the
text between the two star pairs, and the rest of the input. -/
def boldMatch (cs : List Char) : Option (List Char × List Char × List Char) :=
  match findStars cs with
  | none => none
  | some (pre, rest1) =>
    match findStars rest1 with
    | none => none
    | some (mid, rest2) => some (pre, mid, rest2)

/-- JavaScript split on the capturing bold regex: alternating unmatched and
matched parts. Fuel bounds the recursion; each match consumes four or more
characters so the initial fuel always suffices. -/
def boldSplitAux : Nat → List Char → List String
  | 0, cs => [⟨cs⟩]
  | fuel + 1, cs =>
    match boldMatch cs with
    | none => [⟨cs⟩]
    | some (pre, mid, rest) =>
      (⟨pre⟩ : String) :: ("**" ++ (⟨mid⟩ : String) ++ "**") :: boldSplitAux fuel rest

/-- line.split(bold regex with capture). -/
def boldSplit (s : String) : List String := boldSplitAux s.data.length s.data

/-- One paragraph segment: parts wrapped in doubled stars are emphasized and
unwrapped, everything else is plain. -/
def mkSegment (part : String) : String × Bool :=
  if jsStartsWith part "**" && jsEndsWith part "**" then
    (⟨((part.data.drop 2).dropLast).dropLast⟩, true)
  else (part, false)

/-- The anchored bullet-marker strip replace(/^[\*\-] /, empty). -/
def stripBulletMarker (line : String) : String :=
  if jsStartsWith line "* " || jsStartsWith line "- " then ⟨line.data.drop 2⟩
  else line

/-- One line of MarkdownRenderer: prefixes checked in source order; the
bold-led bullet falls through when no label delimiter is present. -/
def renderLine (line : String) : Block :=
  if jsStartsWith line "## " then .header2 (jsReplaceFirst line "## " "")
  else if jsStartsWith line "### " then .header3 (jsReplaceFirst line "### " "")
  else
    let isBoldBullet := jsStartsWith line "* **" || jsStartsWith line "- **"
    let cleanLine := stripPre (stripPre line "* **") "- **"
    let liParts := jsSplit cleanLine "**:"
    if isBoldBullet && decide (liParts.length > 1) then
      .listItem (liParts.headD "") (joinWith "**:" (liParts.drop 1))
    else if jsStartsWith (jsTrim line) "* " || jsStartsWith (jsTrim line) "- " then
      .bullet (stripBulletMarker line)
    else if jsTrim line = "" then .blank
    else .para ((boldSplit line).map mkSegment)

/-- content.split newline then render each line to one block. -/
def renderMarkdown (content : String) : List Block :=
  (jsSplit content "\n").map renderLine

/-! ### handleSubmit (src/App.tsx lines 97-129) -/

/-- The AppState enum of the source. -/
inductive AppPhase where
  | idle
  | analyzing
  | success
  | error
deriving DecidableEq

/-- An attached image. -/
structure ImageAttachment where
  id : String
  data : String
  mimeType : String
deriving DecidableEq

/-- The AnalysisResult returned by analyzeRepairIssue. -/
structure RepairAnalysis where
  diagnosis : String
  rawText : String
  sources : List SourceEntry
deriving DecidableEq

/-- The mutable component state touched by handleSubmit. -/
structure AppModel where
  appState : AppPhase
  hasKey : Bool
  description : String
  images : List ImageAttachment
  analysisResult : Option RepairAnalysis
  errorMsg : Option String
  isLibraryView : Bool
  libraryItems : List LibraryItem
deriving DecidableEq

/-- One knowledge-base block for case index idx (0-based in code, printed
1-based). -/
def kbLine (idx : Nat) (item : LibraryItem) : String :=
  "【历史案例 " ++ toString (idx + 1) ++ "】设备: " ++ item.name ++
  "\n现象: " ++ item.description ++ "\n方案: " ++ jsOrStr item.analysis "无"

/-- libraryItems.map((item, index) => kbLine). -/
def kbLines : Nat → List LibraryItem → List String
  | _, [] => []
  | i, x :: xs => kbLine i x :: kbLines (i + 1) xs

/-- The knowledge-base context: undefined when the library is empty,
otherwise the joined case blocks. -/
def buildKbContext (items : List LibraryItem) : Option String :=
  match items with
  | [] => none
  | _ => some (joinWith "\n---\n" (kbLines 0 items))

/-- Validation message of the empty-submission guard. -/
def submitErrMsg : String := "请描述故障或上传图片"

/-- Message shown when the key is invalid or missing. -/
def authFailMsg : String := "API Key 授权失效，请点击下方按钮重新授权。"

/-- Fallback failure message. -/
def genericFailMsg : String := "分析失败，请检查网络或重试。"

/-- handleSubmit from src/App.tsx lines 97-129. callOutcome is what the
awaited analyzeRepairIssue call would do; the second component counts how
many outbound analysis calls were made. -/
def handleSubmit (st : AppModel) (overrideDescription : Option String)
    (callOutcome : Except JsErr RepairAnalysis) : AppModel × Nat :=
  let finalDesc := jsOrStr overrideDescription st.description
  if jsTrim finalDesc = "" ∧ st.images = [] then
    ({ st with errorMsg := some submitErrMsg }, 0)
  else
    let st1 := { st with appState := .analyzing, errorMsg := none, isLibraryView := false }
    match callOutcome with
    | .ok result => ({ st1 with analysisResult := some result, appState := .success }, 1)
    | .error e =>
      if e.message = some "API_KEY_INVALID" ∨ e.message = some "API_KEY_MISSING" then
        ({ st1 with hasKey := false, errorMsg := some authFailMsg, appState := .error }, 1)
      else
        ({ st1 with errorMsg := some (jsOrStr e.message genericFailMsg), appState := .error }, 1)

/-! ### Claims C1, C2, C3: the retry wrapper -/

/-- Helper: under all-transient failures the loop ends by re-throwing the
error of the last attempt, after exactly N calls. -/
theorem retryLoop_transient {α : Type} (N : Nat) (_d0 : Nat)
    (outcome : Nat → Except JsErr α) (e : Nat → JsErr)
    (hout : ∀ i, i < N → outcome i = .error (e i))
    (hauth : ∀ i, i < N → isAuthError (e i) = false)
    (hnet : ∀ i, i < N → isNetworkError (e i) = true) :
    ∀ remaining i delay sleeps, 0 < remaining → i + remaining = N →
      (retryLoop outcome N remaining i delay sleeps).result = .error (e (N - 1)) ∧
      (retryLoop outcome N remaining i delay sleeps).attempts = N := by
  intro remaining
  induction remaining with
  | zero => intro i delay sleeps h0 _; omega
  | succ r ih =>
    intro i delay sleeps _ hiN
    have hiltN : i < N := by omega
    rw [retryLoop, hout i hiltN]
    simp only [hauth i hiltN, hnet i hiltN]
    cases r with
    | zero =>
      have hlast : i = N - 1 := by omega
      have hd : decide (i < N - 1) = false := by simp; omega
      subst hlast
      constructor
      · simp [hd]
      · simp [hd]; omega
    | succ r2 =>
      have : decide (i < N - 1) = true := by simp; omega
      simp only [this, Bool.and_true, if_true, if_false, Bool.false_eq_true,
        Bool.true_and, ite_true, ite_false]
      exact ih (i + 1) (delay * 2) (sleeps ++ [delay]) (by omega) (by omega)

/-- C1 (amended): for every N ≥ 1, if the underlying call fails with a
transient/network-classified error on all N attempts, generateWithRetry
makes exactly N attempts and then re-throws the last transient error itself;
the MAX_RETRIES_REACHED throw after the loop is unreachable for N ≥ 1. -/
theorem c1_amended {α : Type} (N : Nat) (hN : 1 ≤ N) (d : Nat)
    (outcome : Nat → Except JsErr α) (e : Nat → JsErr)
    (hout : ∀ i, i < N → outcome i = .error (e i))
    (hauth : ∀ i, i < N → isAuthError (e i) = false)
    (hnet : ∀ i, i < N → isNetworkError (e i) = true) :
    (generateWithRetry true outcome N d).result = .error (e (N - 1)) ∧
    (generateWithRetry true outcome N d).attempts = N := by
  have := retryLoop_transient N d outcome e hout hauth hnet N 0 d [] (by omega) (by omega)
  simpa [generateWithRetry] using this

/-- C1 witness: a concrete run of the amended theorem at N = 2. -/
theorem c1_amended_witness :
    (generateWithRetry true (fun _ => .error rpcErr) 2 7 : RetryTrace Nat).result =
      .error rpcErr ∧
    (generateWithRetry true (fun _ => .error rpcErr) 2 7 : RetryTrace Nat).attempts = 2 :=
  c1_amended 2 (by decide) 7 (fun _ => .error rpcErr) (fun _ => rpcErr)
    (fun _ _ => rfl) (fun _ _ => rfl) (fun _ _ => rfl)

/-- C1 counterexample: with max attempts 3 and the transient error
"Rpc failed" on every attempt, generateWithRetry re-throws that transient
error after 3 attempts; the result is not the MAX_RETRIES_REACHED failure
the claim predicts. -/
theorem c1_counterexample :
    (generateWithRetry true (fun _ => .error rpcErr) 3 2000 : RetryTrace Nat) =
      ⟨.error rpcErr, 3, [2000, 4000]⟩ ∧ rpcErr ≠ maxRetriesErr := by
  constructor
  · rfl
  · decide

/-- C2: an authorization-class failure on the first attempt is surfaced as
API_KEY_INVALID immediately: exactly one underlying call, no sleeps, for any
remaining attempt budget. -/
theorem c2_theorem {α : Type} (retries d : Nat) (hr : 1 ≤ retries)
    (outcome : Nat → Except JsErr α) (e : JsErr)
    (h0 : outcome 0 = .error e) (hauth : isAuthError e = true) :
    generateWithRetry true outcome retries d =
      ⟨.error apiKeyInvalidErr, 1, []⟩ := by
  obtain ⟨r, rfl⟩ : ∃ r, retries = r + 1 := ⟨retries - 1, by omega⟩
  rw [generateWithRetry, if_pos rfl, retryLoop, h0]
  simp [hauth]

/-- C2 witness: a 403-status error on attempt one with a budget of 4. -/
theorem c2_witness :
    (generateWithRetry true (fun _ => .error ⟨some "boom", some 403⟩) 4 1000 :
        RetryTrace Nat) = ⟨.error apiKeyInvalidErr, 1, []⟩ :=
  c2_theorem 4 1000 (by decide) (fun _ => .error ⟨some "boom", some 403⟩)
    ⟨some "boom", some 403⟩ rfl (by decide)

/-- C3: with at least 3 attempts allowed and initial delay d, transient
failures on attempts 1 and 2 followed by a success on attempt 3 yield that
success after exactly 2 retries (3 calls), with sleeps d then 2 d. -/
theorem c3_theorem {α : Type} (retries d : Nat) (hr : 3 ≤ retries)
    (outcome : Nat → Except JsErr α) (e0 e1 : JsErr) (r : α)
    (h0 : outcome 0 = .error e0) (h1 : outcome 1 = .error e1)
    (h2 : outcome 2 = .ok r)
    (ha0 : isAuthError e0 = false) (hn0 : isNetworkError e0 = true)
    (ha1 : isAuthError e1 = false) (hn1 : isNetworkError e1 = true) :
    generateWithRetry true outcome retries d = ⟨.ok r, 3, [d, d * 2]⟩ := by
  obtain ⟨n, rfl⟩ : ∃ n, retries = n + 3 := ⟨retries - 3, by omega⟩
  have c0 : decide (0 < n + 3 - 1) = true := by simp
  have c1 : decide (1 < n + 3 - 1) = true := by simp
  rw [generateWithRetry, if_pos rfl]
  rw [retryLoop, h0]
  simp only [ha0, hn0, c0, Bool.true_and, if_false, if_true, ite_false, ite_true,
    Bool.false_eq_true]
  rw [retryLoop, h1]
  simp only [ha1, hn1, c1, Bool.true_and, if_false, if_true, ite_false, ite_true,
    Bool.false_eq_true]
  rw [retryLoop, h2]
  simp

/-- C3 witness: budget 4, delay 5, failing with an RPC error twice then
succeeding. -/
theorem c3_witness :
    (generateWithRetry true (fun i => if i < 2 then .error rpcErr else .ok 42) 4 5 :
        RetryTrace Nat) = ⟨.ok 42, 3, [5, 5 * 2]⟩ :=
  c3_theorem 4 5 (by decide) (fun i => if i < 2 then .error rpcErr else .ok 42)
    rpcErr rpcErr 42 rfl rfl rfl (by decide) (by decide) (by decide) (by decide)

/-! ### Claim C6: the markdown renderer on the specified input -/

/-- The fixed input of the TextRenderer claim. -/
def mdInput : String := "## Title\n- **A**: b\n\nplain **bold** text"

/-- C6 counterexample: the renderer does not produce the claimed block list;
the list item body differs (it keeps the space after the colon). -/
theorem c6_counterexample :
    renderMarkdown mdInput ≠
      [Block.header2 "Title", Block.listItem "A" "b", Block.blank,
        Block.para [("plain ", false), ("bold", true), (" text", false)]] := by
  decide

/-- C6 (amended): the renderer yields Header2, ListItem, Blank, Paragraph
exactly as claimed except that the list item body is " b" (the text after
the label delimiter, space included), not "b". -/
theorem c6_amended :
    renderMarkdown mdInput =
      [Block.header2 "Title", Block.listItem "A" " b", Block.blank,
        Block.para [("plain ", false), ("bold", true), (" text", false)]] := by
  decide

/-! ### Claims C4, C7, C8, C9: the record normalizer -/

/-- Helper: when exactly one row entry matches any alias (case-insensitively)
and its value is truthy, findValue returns the trimmed string form of that
value. -/
theorem findValue_of_unique (row : Row) (keys : List String) (k : String) (v : JSVal)
    (hmem : (k, v) ∈ row)
    (hk : ∃ a ∈ keys, lowerStr k = lowerStr a)
    (huniq : ∀ p ∈ row, (∃ a ∈ keys, lowerStr p.1 = lowerStr a) → p = (k, v))
    (ht : truthy v = true) :
    findValue row keys = some (jsTrim (toStringJS v)) := by
  induction keys with
  | nil => obtain ⟨a, ha, _⟩ := hk; exact absurd ha (List.not_mem_nil a)
  | cons a rest ih =>
    cases hf : row.find? (fun p => lowerStr p.1 == lowerStr a) with
    | some p =>
      have hp := List.find?_some hf
      have hpmem : p ∈ row := List.mem_of_find?_eq_some hf
      have hpkv : p = (k, v) :=
        huniq p hpmem ⟨a, List.mem_cons_self a rest, by simpa using hp⟩
      subst hpkv
      simp [findValue, hf, ht]
    | none =>
      have hka : lowerStr k ≠ lowerStr a := by
        intro h
        have hnone := List.find?_eq_none.mp hf (k, v) hmem
        simp [h] at hnone
      obtain ⟨a2, ha2, hka2⟩ := hk
      have ha2rest : a2 ∈ rest := by
        rcases List.mem_cons.mp ha2 with h | h
        · exact absurd (h ▸ hka2) hka
        · exact h
      have ihres := ih ⟨a2, ha2rest, hka2⟩
        (fun p hp ⟨a3, ha3, hm3⟩ => huniq p hp ⟨a3, List.mem_cons_of_mem a ha3, hm3⟩)
      simpa [findValue, hf] using ihres

/-- Helper: a successful findValue result comes from some row entry that
matches an alias case-insensitively, has a truthy value, and stringifies and
trims to the result. -/
theorem findValue_mem (row : Row) (keys : List String) (d : String)
    (h : findValue row keys = some d) :
    ∃ p ∈ row, (∃ a ∈ keys, lowerStr p.1 = lowerStr a) ∧ truthy p.2 = true ∧
      d = jsTrim (toStringJS p.2) := by
  induction keys with
  | nil => simp [findValue] at h
  | cons a rest ih =>
    cases hf : row.find? (fun p => lowerStr p.1 == lowerStr a) with
    | some p =>
      have hp := List.find?_some hf
      have hpmem : p ∈ row := List.mem_of_find?_eq_some hf
      rw [findValue, hf] at h
      by_cases ht : truthy p.2 = true
      · refine ⟨p, hpmem, ⟨a, List.mem_cons_self a rest, by simpa using hp⟩, ht, ?_⟩
        simp [ht] at h
        exact h.symm
      · simp [ht] at h
        obtain ⟨p2, hp2, ⟨a2, ha2, hm2⟩, ht2, hd2⟩ := ih h
        exact ⟨p2, hp2, ⟨a2, List.mem_cons_of_mem a ha2, hm2⟩, ht2, hd2⟩
    | none =>
      rw [findValue, hf] at h
      obtain ⟨p2, hp2, ⟨a2, ha2, hm2⟩, ht2, hd2⟩ := ih h
      exact ⟨p2, hp2, ⟨a2, List.mem_cons_of_mem a ha2, hm2⟩, ht2, hd2⟩

/-- Helper: rows whose alias-matching entries all trim to the empty string
have no resolved description. -/
theorem resolvedDesc_none (row : Row)
    (h : ∀ p ∈ row, (∃ a ∈ descAliases, lowerStr p.1 = lowerStr a) →
      jsTrim (toStringJS p.2) = "") :
    resolvedDesc row = none := by
  cases hd : findValue row descAliases with
  | none => simp [resolvedDesc, hd]
  | some d =>
    obtain ⟨p, hp, hmatch, _, hdp⟩ := findValue_mem row descAliases d hd
    have : d = "" := hdp.trans (h p hp hmatch)
    simp [resolvedDesc, hd, this]

/-- Helper: the number of records produced equals the number of rows with a
resolved description, independently of the index offset. -/
theorem buildItems_length (now : Nat) (data : List Row) :
    ∀ i, (buildItems now i data).length =
      data.countP (fun r => (resolvedDesc r).isSome) := by
  induction data with
  | nil => intro i; simp [buildItems]
  | cons r rest ih =>
    intro i
    rw [buildItems]
    cases hr : resolvedDesc r with
    | none =>
      have : rowToItem now i r = none := by simp [rowToItem, hr]
      simp [this, ih (i + 1), List.countP_cons, hr]
    | some d =>
      have : rowToItem now i r ≠ none := by simp [rowToItem, hr]
      cases hit : rowToItem now i r with
      | none => exact absurd hit this
      | some it => simp [hit, ih (i + 1), List.countP_cons, hr]

/-- Helper: an all-invalid batch builds no records. -/
theorem buildItems_nil (now : Nat) (data : List Row)
    (h : ∀ row ∈ data, resolvedDesc row = none) :
    ∀ i, buildItems now i data = [] := by
  induction data with
  | nil => intro i; simp [buildItems]
  | cons r rest ih =>
    intro i
    have hr : rowToItem now i r = none := by
      simp [rowToItem, h r (List.mem_cons_self r rest)]
    rw [buildItems, hr]
    exact ih (fun row hrow => h row (List.mem_cons_of_mem r hrow)) (i + 1)

/-- A record held in the working set before an import, used by witnesses and
counterexamples. -/
def demoItem : LibraryItem := ⟨"lib-0-0", "设备A", "未分类", "通电无反应", none⟩

/-- C4 (amended, part_002 variant): when no imported row resolves a fault
description, processLibraryData keeps the previous record set unchanged and
surfaces the no-valid-records message. -/
theorem c4_amended (now : Nat) (prevItems : List LibraryItem) (data : List Row)
    (h : ∀ row ∈ data, resolvedDesc row = none) :
    processLibraryData now prevItems data = (prevItems, some noValidMsg) := by
  rw [processLibraryData]
  simp [buildItems_nil now data h 0]

/-- C4 witness: one alias-free row against a nonempty working set. -/
theorem c4_witness :
    processLibraryData 1 [demoItem] [[("voltage", JSVal.vStr "12")]] =
      ([demoItem], some noValidMsg) :=
  c4_amended 1 [demoItem] [[("voltage", JSVal.vStr "12")]]
    (by intro row hrow; simp at hrow; subst hrow; decide)

/-- C4 counterexample (src/App.tsx variant): the same all-invalid import
replaces the previously held record set with the empty collection and sets
no error message, contradicting the claim. -/
theorem c4_counterexample :
    processLibraryDataApp 0 [demoItem] none [[("voltage", JSVal.vStr "12")]] =
      ([], none) ∧ ([] : List LibraryItem) ≠ [demoItem] := by
  constructor
  · rfl
  · decide

/-- C7 counterexample: the alias key 故障 is present with the numeric value
0, whose trimmed string form "0" is nonempty, yet no record is produced:
the truthiness check treats falsy values as absent. -/
theorem c7_counterexample :
    rowToItem 0 0 [("故障", JSVal.vNum 0)] = none ∧
    jsTrim (toStringJS (JSVal.vNum 0)) = "0" ∧ ("0" : String) ≠ "" := by
  refine ⟨by decide, by decide, by decide⟩

/-- C7 (amended): when the single alias-matching key of a row holds a truthy
value whose trimmed string form is nonempty, the produced record has exactly
that trimmed string as its fault description. -/
theorem c7_amended (now i : Nat) (row : Row) (k : String) (v : JSVal)
    (hmem : (k, v) ∈ row)
    (hk : ∃ a ∈ descAliases, lowerStr k = lowerStr a)
    (huniq : ∀ p ∈ row, (∃ a ∈ descAliases, lowerStr p.1 = lowerStr a) → p = (k, v))
    (ht : truthy v = true)
    (hne : jsTrim (toStringJS v) ≠ "") :
    ∃ item, rowToItem now i row = some item ∧
      item.description = jsTrim (toStringJS v) := by
  have hfv : findValue row descAliases = some (jsTrim (toStringJS v)) :=
    findValue_of_unique row descAliases k v hmem hk huniq ht
  rw [rowToItem, resolvedDesc, hfv]
  simp only [hne, if_false, ite_false]
  exact ⟨_, rfl, rfl⟩

/-- C7 witness: an upper-case alias key with a padded value normalizes to
the trimmed fault description. -/
theorem c7_witness :
    ∃ item, rowToItem 0 0 [("DESCRIPTION", JSVal.vStr " fan broken ")] = some item ∧
      item.description = jsTrim (toStringJS (JSVal.vStr " fan broken ")) :=
  c7_amended 0 0 [("DESCRIPTION", JSVal.vStr " fan broken ")]
    "DESCRIPTION" (JSVal.vStr " fan broken ")
    (by decide) (by decide) (by decide) (by decide) (by decide)

/-- C8: a row whose alias-matching entries all trim to the empty string (in
particular a row lacking every alias) yields no record, leaves the record
count of the batch unchanged relative to omitting it, and leaves the batch
error outcome unchanged: a silent record-level skip. -/
theorem c8_theorem (now i : Nat) (prevItems : List LibraryItem)
    (row : Row) (data1 data2 : List Row)
    (h : ∀ p ∈ row, (∃ a ∈ descAliases, lowerStr p.1 = lowerStr a) →
      jsTrim (toStringJS p.2) = "") :
    rowToItem now i row = none ∧
    (buildItems now 0 (data1 ++ row :: data2)).length =
      (buildItems now 0 (data1 ++ data2)).length ∧
    (processLibraryData now prevItems (data1 ++ row :: data2)).2 =
      (processLibraryData now prevItems (data1 ++ data2)).2 := by
  have hrd : resolvedDesc row = none := resolvedDesc_none row h
  have hitem : rowToItem now i row = none := by simp [rowToItem, hrd]
  have hlen : (buildItems now 0 (data1 ++ row :: data2)).length =
      (buildItems now 0 (data1 ++ data2)).length := by
    rw [buildItems_length now _ 0, buildItems_length now _ 0]
    simp [List.countP_append, List.countP_cons, hrd]
  refine ⟨hitem, hlen, ?_⟩
  rw [processLibraryData, processLibraryData]
  simp only [hlen]
  by_cases hz : (buildItems now 0 (data1 ++ data2)).length = 0 <;> simp [hz]

/-- C8 witness: a whitespace-only 描述 row inserted before a valid row
changes neither the record count nor the error outcome. -/
theorem c8_witness :
    rowToItem 0 0 [("描述", JSVal.vStr "  ")] = none ∧
    (buildItems 0 0 ([[("description", JSVal.vStr "ok")]] ++
        [("描述", JSVal.vStr "  ")] :: [])).length =
      (buildItems 0 0 ([[("description", JSVal.vStr "ok")]] ++ [])).length ∧
    (processLibraryData 0 [] ([[("description", JSVal.vStr "ok")]] ++
        [("描述", JSVal.vStr "  ")] :: [])).2 =
      (processLibraryData 0 [] ([[("description", JSVal.vStr "ok")]] ++ [])).2 :=
  c8_theorem 0 0 [] [("描述", JSVal.vStr "  ")]
    [[("description", JSVal.vStr "ok")]] [] (by decide)

/-- C9 counterexample: on a row whose keys are issue then description, the
findVal variant of src/App.tsx returns the value under issue (row-key
order), while the alias-priority order of the claim selects description;
the part_002 findValue on the same input indeed returns the description
value, so the two cited resolvers disagree and the claim fails for findVal. -/
theorem c9_counterexample :
    findVal [("issue", JSVal.vStr "b"), ("description", JSVal.vStr "a")]
        descAliasesApp = some "b" ∧
    findValue [("issue", JSVal.vStr "b"), ("description", JSVal.vStr "a")]
        descAliasesApp = some "a" ∧
    (some "b" : Option String) ≠ some "a" := by
  refine ⟨by decide, by decide, by decide⟩

/-- C9 (amended, part_002 and part_001 variant): findValue scans the alias
list in order; the first alias whose case-insensitive row match holds a
truthy value determines the field (aliases matching only falsy values are
skipped), and when every alias-matching entry is falsy the field is absent.
The src/App.tsx findVal variant instead scans the row keys in object order,
as the counterexample shows. -/
theorem c9_amended (row : Row) :
    (∀ pre a post k v,
      (∀ a2 ∈ pre, ∀ p ∈ row, lowerStr p.1 = lowerStr a2 → truthy p.2 = false) →
      row.find? (fun p => lowerStr p.1 == lowerStr a) = some (k, v) →
      truthy v = true →
      findValue row (pre ++ a :: post) = some (jsTrim (toStringJS v))) ∧
    (∀ keys,
      (∀ p ∈ row, (∃ a ∈ keys, lowerStr p.1 = lowerStr a) → truthy p.2 = false) →
      findValue row keys = none) := by
  constructor
  · intro pre
    induction pre with
    | nil =>
      intro a post k v _ hfind ht
      simp only [List.nil_append]
      rw [findValue, hfind]
      simp [ht]
    | cons a2 pre2 ih =>
      intro a post k v hpre hfind ht
      have hrest := ih a post k v
        (fun a3 ha3 p hp hm => hpre a3 (List.mem_cons_of_mem a2 ha3) p hp hm)
        hfind ht
      simp only [List.cons_append]
      rw [findValue]
      cases hf : row.find? (fun p => lowerStr p.1 == lowerStr a2) with
      | some p =>
        have hp := List.find?_some hf
        have hpmem : p ∈ row := List.mem_of_find?_eq_some hf
        have : truthy p.2 = false :=
          hpre a2 (List.mem_cons_self a2 pre2) p hpmem (by simpa using hp)
        simp [this, hrest]
      | none => simpa using hrest
  · intro keys
    induction keys with
    | nil => intro _; rfl
    | cons a rest ih =>
      intro h
      rw [findValue]
      cases hf : row.find? (fun p => lowerStr p.1 == lowerStr a) with
      | some p =>
        have hp := List.find?_some hf
        have hpmem : p ∈ row := List.mem_of_find?_eq_some hf
        have : truthy p.2 = false :=
          h p hpmem ⟨a, List.mem_cons_self a rest, by simpa using hp⟩
        simp only [this, Bool.false_eq_true, if_false]
        exact ih (fun p2 hp2 ⟨a2, ha2, hm2⟩ =>
          h p2 hp2 ⟨a2, List.mem_cons_of_mem a ha2, hm2⟩)
      | none =>
        exact ih (fun p2 hp2 ⟨a2, ha2, hm2⟩ =>
          h p2 hp2 ⟨a2, List.mem_cons_of_mem a ha2, hm2⟩)

/-- C9 witness: the falsy 描述 entry is skipped and the later issue alias
resolves the field; a row with only a falsy match resolves to nothing. -/
theorem c9_witness :
    findValue [("描述", JSVal.vStr ""), ("Issue", JSVal.vStr "x")]
      (["description", "描述", "故障", "故障描述", "问题", "现象"] ++ "issue" :: []) =
      some (jsTrim (toStringJS (JSVal.vStr "x"))) ∧
    findValue [("描述", JSVal.vStr "")] ["description", "描述"] = none :=
  ⟨(c9_amended [("描述", JSVal.vStr ""), ("Issue", JSVal.vStr "x")]).1
      ["description", "描述", "故障", "故障描述", "问题", "现象"] "issue" []
      "Issue" (JSVal.vStr "x") (by decide) (by decide) (by decide),
    (c9_amended [("描述", JSVal.vStr "")]).2 ["description", "描述"] (by decide)⟩

/-! ### Claim C5: citation extraction -/

/-- A metadata chunk whose web entry lacks the title field. -/
def incompleteChunk : GroundingChunk := ⟨some ⟨some "https://example.com", none⟩⟩

/-- C5 counterexample: a chunk missing its title is not dropped from the
sources sequence; it is kept as an empty placeholder entry, so the returned
sequence is not made of complete pairs only. -/
theorem c5_counterexample :
    extractSources [incompleteChunk] = [⟨none⟩] ∧
    extractSources [incompleteChunk] ≠ [] := by
  refine ⟨rfl, by decide⟩

/-- Helper: an entry carrying a pair can only come from a complete chunk
with both fields nonempty. -/
theorem mapChunk_web_some (c : GroundingChunk) (u t : String)
    (h : (mapChunk c).web = some (u, t)) :
    ∃ w, c.web = some w ∧ w.uri = some u ∧ w.title = some t ∧
      u ≠ "" ∧ t ≠ "" := by
  rcases c with ⟨cw⟩
  cases cw with
  | none => simp [mapChunk] at h
  | some w =>
    rcases w with ⟨wu, wt⟩
    cases wu with
    | none => simp [mapChunk] at h
    | some u2 =>
      cases wt with
      | none => simp [mapChunk] at h
      | some t2 =>
        by_cases hne : u2 ≠ "" ∧ t2 ≠ ""
        · simp only [mapChunk, if_pos hne, Option.some.injEq, Prod.mk.injEq] at h
          exact ⟨⟨some u2, some t2⟩, rfl, by simp [h.1], by simp [h.2],
            h.1 ▸ hne.1, h.2 ▸ hne.2⟩
        · simp [mapChunk, if_neg hne] at h

/-- C5 (amended): the sources sequence has exactly one entry per metadata
chunk (incomplete chunks become empty placeholder objects rather than being
dropped), and every entry that does carry a pair takes it unchanged from a
chunk whose web metadata has both fields present and nonempty. -/
theorem c5_amended (chunks : List GroundingChunk) :
    (extractSources chunks).length = chunks.length ∧
    ∀ entry ∈ extractSources chunks, ∀ u t, entry.web = some (u, t) →
      ∃ c ∈ chunks, ∃ w, c.web = some w ∧ w.uri = some u ∧ w.title = some t ∧
        u ≠ "" ∧ t ≠ "" := by
  constructor
  · simp [extractSources]
  · intro entry hentry u t hweb
    obtain ⟨c, hc, hmap⟩ := List.mem_map.mp hentry
    exact ⟨c, hc, mapChunk_web_some c u t (hmap ▸ hweb)⟩

/-- C5 witness: one complete and one incomplete chunk give two entries, and
the only pair carried comes from the complete chunk. -/
theorem c5_witness :
    (extractSources [⟨some ⟨some "https://a", some "T"⟩⟩, incompleteChunk]).length =
      ([⟨some ⟨some "https://a", some "T"⟩⟩, incompleteChunk] :
        List GroundingChunk).length ∧
    ∀ entry ∈ extractSources [⟨some ⟨some "https://a", some "T"⟩⟩, incompleteChunk],
      ∀ u t, entry.web = some (u, t) →
        ∃ c ∈ ([⟨some ⟨some "https://a", some "T"⟩⟩, incompleteChunk] :
            List GroundingChunk), ∃ w, c.web = some w ∧ w.uri = some u ∧
            w.title = some t ∧ u ≠ "" ∧ t ≠ "" :=
  c5_amended [⟨some ⟨some "https://a", some "T"⟩⟩, incompleteChunk]

/-! ### Claim C10: the empty-submission guard of handleSubmit -/

/-- C10: when the description trims to the empty string and no images are
attached, handleSubmit performs zero outbound analysis calls and the only
state change is the validation error message; app state, record set and
analysis result are untouched. -/
theorem c10_theorem (st : AppModel) (callOutcome : Except JsErr RepairAnalysis)
    (hdesc : jsTrim st.description = "") (himg : st.images = []) :
    handleSubmit st none callOutcome =
      ({ st with errorMsg := some submitErrMsg }, 0) := by
  rw [handleSubmit]
  simp [jsOrStr, hdesc, himg]

/-- C10 witness: a whitespace-only description with no images in the idle
state only gains the validation message. -/
theorem c10_witness :
    handleSubmit ⟨.idle, true, "   ", [], none, none, false, [demoItem]⟩ none
        (.ok ⟨"Analysis Complete", "text", []⟩) =
      (⟨.idle, true, "   ", [], none, some submitErrMsg, false, [demoItem]⟩, 0) :=
  c10_theorem ⟨.idle, true, "   ", [], none, none, false, [demoItem]⟩
    (.ok ⟨"Analysis Complete", "text", []⟩) (by decide) rfl

end CPRepair
